import Mathlib

/-!
Shallow embedding of pyperch `src/pyperch/neural/backprop_nn.py`.

The file models the single class `BackpropModule` of the repository:
its constructor (which monkey-patches `skorch.NeuralNet.train_step_single`
process-wide and then allocates a stack of linear layers), its `forward`
pass (linear layer, activation, dropout, repeated, then final layer and
output activation), and the overridden `train_step_single` recipe
(set training mode, infer, loss, backward, return loss and predictions).

Tensors are modelled as lists of rationals (a batch is a list of rows).
The exponential used by softmax/sigmoid is an explicit parameter
`e : Q → Q`, since only shape and structural properties are at stake.
Dropout takes an explicit boolean mask (the stochastic choice made
explicit); the PyTorch training-mode scaling by 1/(1-p) is kept.
The process-wide effect of the constructor is modelled by explicit
passing of a `ProcState` holding the current `train_step_single`
implementation of the `skorch.NeuralNet` base class.
-/

/-- Which implementation of `train_step_single` is currently installed on
the `skorch.NeuralNet` base class. -/
inductive TrainStepImpl where
  | skorchDefault
  | backprop
  deriving DecidableEq

/-- Process-wide mutable state touched by the module: the dispatch slot of
`NeuralNet.train_step_single`. -/
structure ProcState where
  neuralNetTrainStep : TrainStepImpl
  deriving DecidableEq

/-- Device selected at construction, from `torch.cuda.is_available()`. -/
inductive Device where
  | cuda
  | cpu
  deriving DecidableEq

/-- Activation modules that can be passed as `activation` or
`output_activation`; the source defaults are `nn.ReLU()` and
`nn.Softmax(dim=-1)`. -/
inductive ActFn where
  | relu
  | softmaxLastDim
  | sigmoid
  | identity
  deriving DecidableEq

/-- Softmax over the last dimension of a row, with the exponential
function passed explicitly. -/
def softmaxWith (e : ℚ → ℚ) (x : List ℚ) : List ℚ :=
  x.map (fun v => e v / (x.map e).sum)

/-- Apply an activation module to a row (elementwise, or softmax over the
row, matching `dim=-1`). -/
def ActFn.apply (e : ℚ → ℚ) : ActFn → List ℚ → List ℚ
  | .relu, x => x.map (fun v => max v 0)
  | .softmaxLastDim, x => softmaxWith e x
  | .sigmoid, x => x.map (fun v => 1 / (1 + e (-v)))
  | .identity, x => x

/-- An `nn.Linear` layer: `weight` has one row per output feature, each of
length `in_features`; `bias` has one entry per output feature. -/
structure Linear where
  weight : List (List ℚ)
  bias : List ℚ
  deriving DecidableEq

/-- Placeholder layer used as the default of list lookups. -/
def Linear.empty : Linear := ⟨[], []⟩

/-- Dot product of two rows. -/
def dotQ (xs ys : List ℚ) : ℚ :=
  (List.zipWith (fun a b => a * b) xs ys).sum

/-- Apply a linear layer to a row: affine transform `W x + b`. -/
def Linear.apply (l : Linear) (x : List ℚ) : List ℚ :=
  List.zipWith (fun w c => dotQ w x + c) l.weight l.bias

/-- Build `nn.Linear(inF, outF)` with initial weights `w` and biases `b`
(PyTorch draws these randomly; they are parameters here). -/
def mkLinear (inF outF : Nat) (w : Nat → Nat → ℚ) (b : Nat → ℚ) : Linear :=
  { weight := (List.range outF).map (fun i => (List.range inF).map (w i))
    bias := (List.range outF).map b }

/-- `nn.Dropout(p)` applied in training mode: each element is zeroed where
the sampled mask says so, and kept elements are scaled by `1/(1-p)`. -/
def dropoutApply (p : ℚ) (mask : Nat → Bool) (x : List ℚ) : List ℚ :=
  x.mapIdx (fun i v => if mask i then 0 else v / (1 - p))

/-- `nn.Dropout(p)` as called from `forward`: active in training mode,
identity in eval mode. -/
def dropoutRun (training : Bool) (p : ℚ) (mask : Nat → Bool) (x : List ℚ) : List ℚ :=
  if training then dropoutApply p mask x else x

/-- Constructor configuration of `BackpropModule.__init__`, with the
default values of the source signature. -/
structure Config where
  input_dim : Nat
  output_dim : Nat
  hidden_units : Nat := 10
  hidden_layers : Nat := 1
  dropout_percent : ℚ := 0
  activation : ActFn := ActFn.relu
  output_activation : ActFn := ActFn.softmaxLastDim

/-- The network instance built by `BackpropModule.__init__`: the stored
configuration fields plus the `nn.ModuleList` of layers. -/
structure BackpropModule where
  input_dim : Nat
  output_dim : Nat
  hidden_units : Nat
  hidden_layers : Nat
  dropout_percent : ℚ
  activation : ActFn
  output_activation : ActFn
  layers : List Linear
  device : Device

/-- Errors the constructor can raise; `nn.Dropout` raises `ValueError`
when the probability is outside `[0, 1]`. -/
inductive InitErr where
  | invalidDropoutProbability
  deriving DecidableEq

/-- `BackpropModule.register_backprop_training_step`: monkey-patches
`train_step_single` onto the `skorch.NeuralNet` base class via `add_to`,
replacing the default for the whole process. -/
def registerBackpropTrainingStep (st : ProcState) : ProcState :=
  { st with neuralNetTrainStep := TrainStepImpl.backprop }

/-- The layer stack built by the constructor: input layer
`(input_dim, hidden_units)`, then `hidden_layers` layers
`(hidden_units, hidden_units)`, then the output layer
`(hidden_units, output_dim)`. Weight and bias initial values are indexed
by layer position. -/
def mkLayers (cfg : Config) (w : Nat → Nat → Nat → ℚ) (b : Nat → Nat → ℚ) :
    List Linear :=
  [mkLinear cfg.input_dim cfg.hidden_units (w 0) (b 0)]
    ++ (List.range cfg.hidden_layers).map
        (fun j => mkLinear cfg.hidden_units cfg.hidden_units (w (j + 1)) (b (j + 1)))
    ++ [mkLinear cfg.hidden_units cfg.output_dim
          (w (cfg.hidden_layers + 1)) (b (cfg.hidden_layers + 1))]

/-- `BackpropModule.__init__`: first (unconditionally) registers the
process-wide training-step override, then stores the configuration,
builds `nn.Dropout(dropout_percent)` (which raises for a probability
outside `[0, 1]`), selects the device, and allocates the layer stack.
There is no validation of dimensions. The returned pair is the
process state after the call together with the construction outcome. -/
def BackpropModule.init (cfg : Config) (w : Nat → Nat → Nat → ℚ)
    (b : Nat → Nat → ℚ) (cudaAvailable : Bool) (st : ProcState) :
    ProcState × Except InitErr BackpropModule :=
  let st1 := registerBackpropTrainingStep st
  if cfg.dropout_percent < 0 ∨ 1 < cfg.dropout_percent then
    (st1, Except.error InitErr.invalidDropoutProbability)
  else
    (st1, Except.ok
      { input_dim := cfg.input_dim
        output_dim := cfg.output_dim
        hidden_units := cfg.hidden_units
        hidden_layers := cfg.hidden_layers
        dropout_percent := cfg.dropout_percent
        activation := cfg.activation
        output_activation := cfg.output_activation
        layers := mkLayers cfg w b
        device := if cudaAvailable then Device.cuda else Device.cpu })

/-- One round of the forward pass body: `X = activation(layers[i](X))`
followed by `X = dropout(X)`, with the dropout mask indexed by the
position of the dropout call. -/
def forwardStep (e : ℚ → ℚ) (training : Bool) (mask : Nat → Nat → Bool)
    (m : BackpropModule) (i : Nat) (X : List ℚ) : List ℚ :=
  dropoutRun training m.dropout_percent (mask i)
    (ActFn.apply e m.activation ((m.layers.getD i Linear.empty).apply X))

/-- `BackpropModule.forward` on a single row: layer 0 with activation and
dropout, the loop `for i in range(1, hidden_layers+1)` of layer,
activation, dropout, then the final layer with the output activation. -/
def forwardRow (e : ℚ → ℚ) (training : Bool) (mask : Nat → Nat → Bool)
    (m : BackpropModule) (x : List ℚ) : List ℚ :=
  let X1 := forwardStep e training mask m 0 x
  let X2 := (List.range m.hidden_layers).foldl
      (fun X j => forwardStep e training mask m (j + 1) X) X1
  ActFn.apply e m.output_activation
    ((m.layers.getD (m.hidden_layers + 1) Linear.empty).apply X2)

/-- `BackpropModule.forward` on a batch: row by row, with a dropout mask
indexed additionally by the row. -/
def BackpropModule.forward (e : ℚ → ℚ) (training : Bool)
    (mask : Nat → Nat → Nat → Bool) (m : BackpropModule)
    (X : List (List ℚ)) : List (List ℚ) :=
  X.mapIdx (fun r row => forwardRow e training (mask r) m row)

/-- One operation of the forward pass, for stating the order of
application; `linear i` is `self.layers[i]`, `drop i` the dropout call at
position `i`, `outAct` the output activation. -/
inductive FOp where
  | linear (i : Nat)
  | act
  | drop (i : Nat)
  | outAct
  deriving DecidableEq

/-- The sequence of operations `BackpropModule.forward` performs for
`hidden_layers = h`, read off the source text. -/
def forwardTrace (h : Nat) : List FOp :=
  ([FOp.linear 0, FOp.act, FOp.drop 0]
      ++ ((List.range h).map
          (fun j => [FOp.linear (j + 1), FOp.act, FOp.drop (j + 1)])).flatten)
    ++ [FOp.linear (h + 1), FOp.outAct]

/-- The sequence of operations the specification prescribes: layer 0,
activation, dropout; for each of the `h` hidden layers the layer followed
by activation and dropout; the final layer followed by the output
activation, with no dropout after it. -/
def specForwardSequence (h : Nat) : List FOp :=
  [FOp.linear 0, FOp.act, FOp.drop 0]
    ++ ((List.range h).map
        (fun j => [FOp.linear (j + 1), FOp.act, FOp.drop (j + 1)])).flatten
    ++ [FOp.linear (h + 1), FOp.outAct]

/-- Semantics of one forward-pass operation on a row. -/
def runOp (e : ℚ → ℚ) (training : Bool) (mask : Nat → Nat → Bool)
    (m : BackpropModule) (X : List ℚ) : FOp → List ℚ
  | FOp.linear i => (m.layers.getD i Linear.empty).apply X
  | FOp.act => ActFn.apply e m.activation X
  | FOp.drop i => dropoutRun training m.dropout_percent (mask i) X
  | FOp.outAct => ActFn.apply e m.output_activation X

/-- Run a sequence of forward-pass operations on a row. -/
def runTrace (e : ℚ → ℚ) (training : Bool) (mask : Nat → Nat → Bool)
    (m : BackpropModule) (ops : List FOp) (x : List ℚ) : List ℚ :=
  ops.foldl (fun X op => runOp e training mask m X op) x

/-- Is the operation a linear-layer application. -/
def FOp.isLinearOp : FOp → Bool
  | FOp.linear _ => true
  | _ => false

/-- The result dictionary returned by the overridden
`train_step_single`: the scalar loss and the predictions. -/
structure StepResult where
  loss : ℚ
  y_pred : List (List ℚ)
  deriving DecidableEq

/-- The mutable part of a `skorch.NeuralNet` that the overridden
training step touches: the wrapped module (whose layers hold the
parameters), the training flag, and the accumulated gradient buffer
(each `loss.backward()` call appends its contribution; an optimizer step
or `zero_grad` would rewrite it, but the override performs neither). -/
structure NeuralNet where
  module : BackpropModule
  training : Bool
  grads : List ℚ

/-- The overridden `train_step_single(self, batch)`: set training mode,
unpack the batch into `Xi, yi`, infer predictions with the module
forward pass, compute the configured loss of the predictions against the
targets, call `loss.backward()` (accumulating into the gradient buffer),
and return the dictionary of loss and predictions. `lossFn` is the
configured criterion of `get_loss`. -/
def trainStepSingle (e : ℚ → ℚ) (mask : Nat → Nat → Nat → Bool)
    (lossFn : List (List ℚ) → List (List ℚ) → ℚ) (net : NeuralNet)
    (batch : List (List ℚ) × List (List ℚ)) : NeuralNet × StepResult :=
  let net1 : NeuralNet := { net with training := true }
  let Xi := batch.fst
  let yi := batch.snd
  let y_pred := BackpropModule.forward e net1.training mask net1.module Xi
  let loss := lossFn y_pred yi
  let net2 : NeuralNet := { net1 with grads := net1.grads ++ [loss] }
  (net2, { loss := loss, y_pred := y_pred })

/-- Dispatch of a training step through the current process state: the
installed implementation of the `NeuralNet` base class is the one that
runs, for every network in the process. -/
def dispatchTrainStep {α : Type} (st : ProcState) (defaultStep backpropStep : α) : α :=
  match st.neuralNetTrainStep with
  | TrainStepImpl.skorchDefault => defaultStep
  | TrainStepImpl.backprop => backpropStep

/-- An operation of the public surface of the module that touches process
state: only constructing a `BackpropModule` (which re-registers the
override). No operation restores the default. -/
structure ConstructOp where
  cfg : Config
  w : Nat → Nat → Nat → ℚ
  b : Nat → Nat → ℚ
  cudaAvailable : Bool

/-- Effect of one construction on the process state. -/
def applyConstruct (st : ProcState) (op : ConstructOp) : ProcState :=
  (BackpropModule.init op.cfg op.w op.b op.cudaAvailable st).fst

/-- Effect of a sequence of constructions on the process state. -/
def applyConstructs (st : ProcState) (ops : List ConstructOp) : ProcState :=
  ops.foldl applyConstruct st

/-! ## Helper lemmas -/

theorem ActFn.length_apply (e : ℚ → ℚ) (f : ActFn) (x : List ℚ) :
    (ActFn.apply e f x).length = x.length := by
  cases f <;> simp [ActFn.apply, softmaxWith]

theorem length_dropoutRun (training : Bool) (p : ℚ) (mask : Nat → Bool)
    (x : List ℚ) : (dropoutRun training p mask x).length = x.length := by
  cases training <;> simp [dropoutRun, dropoutApply]

theorem mkLinear_apply_length (inF outF : Nat) (w : Nat → Nat → ℚ)
    (b : Nat → ℚ) (x : List ℚ) : ((mkLinear inF outF w b).apply x).length = outF := by
  simp [mkLinear, Linear.apply]

theorem mkLayers_length (cfg : Config) (w : Nat → Nat → Nat → ℚ)
    (b : Nat → Nat → ℚ) : (mkLayers cfg w b).length = cfg.hidden_layers + 2 := by
  simp [mkLayers]

theorem mkLayers_getD_zero (cfg : Config) (w : Nat → Nat → Nat → ℚ)
    (b : Nat → Nat → ℚ) :
    (mkLayers cfg w b).getD 0 Linear.empty
      = mkLinear cfg.input_dim cfg.hidden_units (w 0) (b 0) := by
  simp [mkLayers]

theorem mkLayers_getD_hidden (cfg : Config) (w : Nat → Nat → Nat → ℚ)
    (b : Nat → Nat → ℚ) (j : Nat) (hj : j < cfg.hidden_layers) :
    (mkLayers cfg w b).getD (j + 1) Linear.empty
      = mkLinear cfg.hidden_units cfg.hidden_units (w (j + 1)) (b (j + 1)) := by
  unfold mkLayers
  rw [List.append_assoc, List.singleton_append, List.getD_cons_succ,
    List.getD_append _ _ _ _ (by simpa using hj),
    List.getD_eq_getElem _ _ (by simpa using hj)]
  simp

theorem mkLayers_getD_last (cfg : Config) (w : Nat → Nat → Nat → ℚ)
    (b : Nat → Nat → ℚ) :
    (mkLayers cfg w b).getD (cfg.hidden_layers + 1) Linear.empty
      = mkLinear cfg.hidden_units cfg.output_dim
          (w (cfg.hidden_layers + 1)) (b (cfg.hidden_layers + 1)) := by
  unfold mkLayers
  rw [List.getD_append_right _ _ _ _ (by simp)]
  simp

theorem init_ok_elim (cfg : Config) (w : Nat → Nat → Nat → ℚ)
    (b : Nat → Nat → ℚ) (cuda : Bool) (st : ProcState) (m : BackpropModule)
    (h : (BackpropModule.init cfg w b cuda st).snd = Except.ok m) :
    m.input_dim = cfg.input_dim ∧ m.output_dim = cfg.output_dim ∧
    m.hidden_units = cfg.hidden_units ∧ m.hidden_layers = cfg.hidden_layers ∧
    m.dropout_percent = cfg.dropout_percent ∧ m.activation = cfg.activation ∧
    m.output_activation = cfg.output_activation ∧ m.layers = mkLayers cfg w b := by
  unfold BackpropModule.init at h
  by_cases hp : cfg.dropout_percent < 0 ∨ 1 < cfg.dropout_percent
  · simp [hp] at h
  · simp [hp] at h
    subst h
    exact ⟨rfl, rfl, rfl, rfl, rfl, rfl, rfl, rfl⟩

theorem init_fst (cfg : Config) (w : Nat → Nat → Nat → ℚ)
    (b : Nat → Nat → ℚ) (cuda : Bool) (st : ProcState) :
    (BackpropModule.init cfg w b cuda st).fst = registerBackpropTrainingStep st := by
  unfold BackpropModule.init
  by_cases hp : cfg.dropout_percent < 0 ∨ 1 < cfg.dropout_percent <;> simp [hp]

theorem applyConstructs_backprop (ops : List ConstructOp) :
    ∀ st : ProcState, st.neuralNetTrainStep = TrainStepImpl.backprop →
      (applyConstructs st ops).neuralNetTrainStep = TrainStepImpl.backprop := by
  induction ops with
  | nil => intro st h; exact h
  | cons op rest ih =>
    intro st h
    have : (applyConstruct st op).neuralNetTrainStep = TrainStepImpl.backprop := by
      unfold applyConstruct
      rw [init_fst]
      rfl
    exact ih _ this

theorem runTrace_append (e : ℚ → ℚ) (training : Bool) (mask : Nat → Nat → Bool)
    (m : BackpropModule) (ops1 ops2 : List FOp) (x : List ℚ) :
    runTrace e training mask m (ops1 ++ ops2) x
      = runTrace e training mask m ops2 (runTrace e training mask m ops1 x) := by
  unfold runTrace
  exact List.foldl_append _ _ _ _

theorem runTrace_hidden_loop (e : ℚ → ℚ) (training : Bool)
    (mask : Nat → Nat → Bool) (m : BackpropModule) (h : Nat) (x : List ℚ) :
    runTrace e training mask m
        (((List.range h).map
            (fun j => [FOp.linear (j + 1), FOp.act, FOp.drop (j + 1)])).flatten) x
      = (List.range h).foldl
          (fun X j => forwardStep e training mask m (j + 1) X) x := by
  induction h with
  | zero => rfl
  | succ n ih =>
    rw [List.range_succ, List.map_append, List.flatten_append, runTrace_append,
      List.foldl_append, ih]
    rfl

theorem runTrace_forwardTrace (e : ℚ → ℚ) (training : Bool)
    (mask : Nat → Nat → Bool) (m : BackpropModule) (x : List ℚ) :
    runTrace e training mask m (forwardTrace m.hidden_layers) x
      = forwardRow e training mask m x := by
  unfold forwardTrace forwardRow
  rw [runTrace_append, runTrace_append, runTrace_hidden_loop]
  rfl

theorem outAct_not_mem_hidden (h : Nat) :
    FOp.outAct ∉ ((List.range h).map
        (fun j => [FOp.linear (j + 1), FOp.act, FOp.drop (j + 1)])).flatten := by
  intro hmem
  rw [List.mem_flatten] at hmem
  obtain ⟨l, hl, hmem⟩ := hmem
  rw [List.mem_map] at hl
  obtain ⟨j, hj, rfl⟩ := hl
  simp at hmem

theorem dropoutApply_zero_keep : ∀ (x : List ℚ) (mask : Nat → Bool),
    (∀ i, mask i = false) → dropoutApply 0 mask x = x := by
  intro x
  induction x with
  | nil => intro mask hm; rfl
  | cons a l ih =>
    intro mask hm
    have h1 : dropoutApply 0 mask (a :: l)
        = (if mask 0 then 0 else a / (1 - 0))
            :: dropoutApply 0 (fun i => mask (i + 1)) l := by
      simp [dropoutApply, List.mapIdx_cons]
    rw [h1, ih (fun i => mask (i + 1)) (fun i => hm (i + 1)), hm 0]
    norm_num

/-! ## Claim theorems -/

/-- C1: the claim says construction with a non-positive dimension (in
particular `input_dim = 0`) fails validation before any layer parameters
are allocated. The code performs no dimension validation: with
`input_dim = 0` (and `output_dim = 1`) the constructor succeeds and
returns a module whose full layer stack (here of length 3, containing a
zero-input-width first layer) has been allocated. -/
theorem c1_zero_input_dim_construction_succeeds :
    ∃ m : BackpropModule,
      (BackpropModule.init { input_dim := 0, output_dim := 1 }
          (fun _ _ _ => 0) (fun _ _ => 0) false
          ⟨TrainStepImpl.skorchDefault⟩).snd = Except.ok m
      ∧ m.input_dim = 0 ∧ m.layers.length = 3
      ∧ (m.layers.getD 0 Linear.empty).weight
          = (List.range 10).map (fun _ => ([] : List ℚ)) := by
  refine ⟨_, rfl, rfl, ?_, ?_⟩ <;> rfl

/-- C2: every construction of a `BackpropModule` sets the
`train_step_single` slot of the `skorch.NeuralNet` base class to the
backprop implementation, process-wide; afterwards every training-step
dispatch (for any network) selects the backprop recipe, and no sequence
of further operations of the module ever restores the default. -/
theorem c2_construction_patches_process_wide (cfg : Config)
    (w : Nat → Nat → Nat → ℚ) (b : Nat → Nat → ℚ) (cuda : Bool)
    (st : ProcState) :
    (BackpropModule.init cfg w b cuda st).fst.neuralNetTrainStep
        = TrainStepImpl.backprop
    ∧ (∀ (α : Type) (defaultStep backpropStep : α),
        dispatchTrainStep (BackpropModule.init cfg w b cuda st).fst
            defaultStep backpropStep = backpropStep)
    ∧ (∀ ops : List ConstructOp,
        (applyConstructs (BackpropModule.init cfg w b cuda st).fst
            ops).neuralNetTrainStep = TrainStepImpl.backprop) := by
  have h1 : (BackpropModule.init cfg w b cuda st).fst.neuralNetTrainStep
      = TrainStepImpl.backprop := by rw [init_fst]; rfl
  refine ⟨h1, ?_, ?_⟩
  · intro α d bp
    unfold dispatchTrainStep
    rw [h1]
  · intro ops
    exact applyConstructs_backprop ops _ h1

/-- C3: the overridden `train_step_single` sets the network to training
mode, computes predictions by the forward/infer pass, computes the
configured loss of the predictions against the batch targets, propagates
gradients backward (accumulating into the gradient buffer), and returns
a result holding both the scalar loss and the predictions. -/
theorem c3_train_step_contract (e : ℚ → ℚ) (mask : Nat → Nat → Nat → Bool)
    (lossFn : List (List ℚ) → List (List ℚ) → ℚ) (net : NeuralNet)
    (batch : List (List ℚ) × List (List ℚ)) :
    (trainStepSingle e mask lossFn net batch).fst.training = true
    ∧ (trainStepSingle e mask lossFn net batch).snd.y_pred
        = BackpropModule.forward e true mask net.module batch.fst
    ∧ (trainStepSingle e mask lossFn net batch).snd.loss
        = lossFn (BackpropModule.forward e true mask net.module batch.fst)
            batch.snd
    ∧ (trainStepSingle e mask lossFn net batch).fst.grads
        = net.grads ++ [(trainStepSingle e mask lossFn net batch).snd.loss] :=
  ⟨rfl, rfl, rfl, rfl⟩

/-- C9: the process-wide patch of `NeuralNet.train_step_single` is the
first effect of the constructor: whatever the configuration, the process
state after `__init__` is exactly the registered state, even when
construction fails partway (an invalid dropout probability, here 2,
raises after the patch), and it is not rolled back. -/
theorem c9_patch_survives_failed_construction (cfg : Config)
    (w : Nat → Nat → Nat → ℚ) (b : Nat → Nat → ℚ) (cuda : Bool)
    (st : ProcState) :
    (BackpropModule.init cfg w b cuda st).fst = registerBackpropTrainingStep st
    ∧ (BackpropModule.init cfg w b cuda st).fst.neuralNetTrainStep
        = TrainStepImpl.backprop
    ∧ (BackpropModule.init
          { input_dim := 3, output_dim := 2, dropout_percent := 2 }
          w b cuda st).snd
        = Except.error InitErr.invalidDropoutProbability := by
  refine ⟨init_fst cfg w b cuda st, ?_, ?_⟩
  · rw [init_fst]; rfl
  · unfold BackpropModule.init
    norm_num

/-- C10: a call of the overridden `train_step_single` leaves every
parameter of the network unchanged: the wrapped module (hence every
layer weight and bias) is exactly the one before the call, and the
gradient buffer is only extended by the backward contribution, never
zeroed and never applied to the parameters. -/
theorem c10_train_step_preserves_parameters (e : ℚ → ℚ)
    (mask : Nat → Nat → Nat → Bool)
    (lossFn : List (List ℚ) → List (List ℚ) → ℚ) (net : NeuralNet)
    (batch : List (List ℚ) × List (List ℚ)) :
    (trainStepSingle e mask lossFn net batch).fst.module = net.module
    ∧ (trainStepSingle e mask lossFn net batch).fst.module.layers
        = net.module.layers
    ∧ (trainStepSingle e mask lossFn net batch).fst.grads
        = net.grads
            ++ [lossFn (BackpropModule.forward e true mask net.module batch.fst)
                  batch.snd]
    ∧ net.grads <+: (trainStepSingle e mask lossFn net batch).fst.grads :=
  ⟨rfl, rfl, rfl,
    [lossFn (BackpropModule.forward e true mask net.module batch.fst) batch.snd],
    rfl⟩

/-- C4: for every module with `hidden_layers = h`, the forward pass
performs exactly the sequence layer 0, activation, dropout; then for
each of the `h` hidden layers the layer, activation, dropout; then the
final layer followed by the output activation. Running this operation
sequence is exactly `forwardRow`; the trace equals the sequence the
specification prescribes; the output activation occurs exactly once; and
the trace ends with the final layer immediately followed by the output
activation (so dropout never follows the output layer, and the output
activation applies only to the final layer result). -/
theorem c4_forward_operation_order (m : BackpropModule) (e : ℚ → ℚ)
    (training : Bool) (mask : Nat → Nat → Bool) (x : List ℚ) :
    runTrace e training mask m (forwardTrace m.hidden_layers) x
        = forwardRow e training mask m x
    ∧ forwardTrace m.hidden_layers = specForwardSequence m.hidden_layers
    ∧ (forwardTrace m.hidden_layers).count FOp.outAct = 1
    ∧ (∃ pre : List FOp,
        forwardTrace m.hidden_layers
            = pre ++ [FOp.linear (m.hidden_layers + 1), FOp.outAct]
        ∧ FOp.outAct ∉ pre) := by
  refine ⟨runTrace_forwardTrace e training mask m x, rfl, ?_, ?_⟩
  · unfold forwardTrace
    rw [List.count_append, List.count_append]
    have h0 : ([FOp.linear 0, FOp.act, FOp.drop 0] : List FOp).count FOp.outAct
        = 0 := by decide
    have h1 : (((List.range m.hidden_layers).map
        (fun j => [FOp.linear (j + 1), FOp.act, FOp.drop (j + 1)])).flatten).count
          FOp.outAct = 0 :=
      List.count_eq_zero.mpr (outAct_not_mem_hidden m.hidden_layers)
    rw [h0, h1]
    simp [List.count_cons]
  · refine ⟨[FOp.linear 0, FOp.act, FOp.drop 0]
        ++ ((List.range m.hidden_layers).map
            (fun j => [FOp.linear (j + 1), FOp.act, FOp.drop (j + 1)])).flatten,
      rfl, ?_⟩
    intro hmem
    rw [List.mem_append] at hmem
    rcases hmem with hmem | hmem
    · simp at hmem
    · exact outAct_not_mem_hidden m.hidden_layers hmem

/-- C8: constructing with only `input_dim` and `output_dim` supplied uses
the source defaults `hidden_units = 10`, `hidden_layers = 1`,
`dropout_percent = 0`, activation `nn.ReLU()` and output activation
`nn.Softmax(dim=-1)`; the resulting default network has exactly 3 linear
layers, and dropout with probability 0 (which keeps every element, the
almost-sure mask) is the identity. -/
theorem c8_default_configuration (i o : Nat) :
    ({ input_dim := i, output_dim := o } : Config).hidden_units = 10
    ∧ ({ input_dim := i, output_dim := o } : Config).hidden_layers = 1
    ∧ ({ input_dim := i, output_dim := o } : Config).dropout_percent = 0
    ∧ ({ input_dim := i, output_dim := o } : Config).activation = ActFn.relu
    ∧ ({ input_dim := i, output_dim := o } : Config).output_activation
        = ActFn.softmaxLastDim
    ∧ (∀ (w : Nat → Nat → Nat → ℚ) (b : Nat → Nat → ℚ) (cuda : Bool)
        (st : ProcState), ∃ m : BackpropModule,
        (BackpropModule.init { input_dim := i, output_dim := o }
            w b cuda st).snd = Except.ok m
        ∧ m.layers.length = 3)
    ∧ (∀ (training : Bool) (x : List ℚ),
        dropoutRun training 0 (fun _ => false) x = x) := by
  refine ⟨rfl, rfl, rfl, rfl, rfl, ?_, ?_⟩
  · intro w b cuda st
    refine ⟨{ input_dim := i
              output_dim := o
              hidden_units := 10
              hidden_layers := 1
              dropout_percent := 0
              activation := ActFn.relu
              output_activation := ActFn.softmaxLastDim
              layers := mkLayers { input_dim := i, output_dim := o } w b
              device := if cuda then Device.cuda else Device.cpu }, ?_, ?_⟩
    · unfold BackpropModule.init
      norm_num
    · have := mkLayers_length { input_dim := i, output_dim := o } w b
      simpa using this
  · intro training x
    cases training with
    | false => rfl
    | true =>
      unfold dropoutRun
      simp only [if_pos rfl]
      exact dropoutApply_zero_keep x (fun _ => false) (fun _ => rfl)

theorem forwardRow_length (cfg : Config) (w : Nat → Nat → Nat → ℚ)
    (b : Nat → Nat → ℚ) (cuda : Bool) (st : ProcState) (m : BackpropModule)
    (hm : (BackpropModule.init cfg w b cuda st).snd = Except.ok m)
    (e : ℚ → ℚ) (training : Bool) (mask : Nat → Nat → Bool) (x : List ℚ) :
    (forwardRow e training mask m x).length = cfg.output_dim := by
  obtain ⟨-, -, -, hh, -, -, -, hl⟩ := init_ok_elim cfg w b cuda st m hm
  simp only [forwardRow]
  rw [ActFn.length_apply, hl, hh, mkLayers_getD_last, mkLinear_apply_length]

/-- C5: for every valid configuration (positive dimensions and hidden
width, any hidden-layer count, dropout probability in `[0, 1)`), the
forward pass maps a batch of shape `(B, input_dim)` to a batch of shape
`(B, output_dim)`: the output has one row per input row and every output
row has length `output_dim`. -/
theorem c5_forward_shape (cfg : Config) (w : Nat → Nat → Nat → ℚ)
    (b : Nat → Nat → ℚ) (cuda : Bool) (st : ProcState) (m : BackpropModule)
    (h1 : 0 < cfg.input_dim) (h2 : 0 < cfg.output_dim)
    (h3 : 0 < cfg.hidden_units) (h4 : 0 ≤ cfg.dropout_percent)
    (h5 : cfg.dropout_percent < 1)
    (hm : (BackpropModule.init cfg w b cuda st).snd = Except.ok m)
    (e : ℚ → ℚ) (training : Bool) (mask : Nat → Nat → Nat → Bool)
    (X : List (List ℚ)) (hX : ∀ row ∈ X, row.length = cfg.input_dim) :
    (BackpropModule.forward e training mask m X).length = X.length
    ∧ ∀ row ∈ BackpropModule.forward e training mask m X,
        row.length = cfg.output_dim := by
  constructor
  · simp [BackpropModule.forward]
  · intro row hrow
    unfold BackpropModule.forward at hrow
    rw [List.mapIdx_eq_ofFn, List.mem_ofFn] at hrow
    obtain ⟨i, hi⟩ := hrow
    rw [← hi]
    exact forwardRow_length cfg w b cuda st m hm e training _ _

/-- Witness for C5 at a concrete valid configuration and batch. -/
theorem c5_forward_shape_witness :
    ∃ m : BackpropModule,
      (BackpropModule.init
          { input_dim := 2, output_dim := 3, hidden_units := 1,
            hidden_layers := 0 }
          (fun _ _ _ => 1) (fun _ _ => 0) false
          ⟨TrainStepImpl.skorchDefault⟩).snd = Except.ok m
      ∧ ((BackpropModule.forward (fun v => v) true (fun _ _ _ => false) m
            [[1, 2]]).length = 1
        ∧ ∀ row ∈ BackpropModule.forward (fun v => v) true
            (fun _ _ _ => false) m [[1, 2]], row.length = 3) := by
  refine ⟨_, rfl, ?_⟩
  have h := c5_forward_shape
    { input_dim := 2, output_dim := 3, hidden_units := 1, hidden_layers := 0 }
    (fun _ _ _ => 1) (fun _ _ => 0) false ⟨TrainStepImpl.skorchDefault⟩ _
    (by decide) (by decide) (by decide) (by decide) (by decide) rfl
    (fun v => v) true (fun _ _ _ => false) [[1, 2]] (by decide)
  simpa using h

/-- C6: after a successful construction the layer stack is an ordered
sequence of exactly `hidden_layers + 2` linear layers, with the input
layer at position 0, the hidden layers at positions `1..hidden_layers`,
and the output layer last; and a training step (the only operation
besides the optimizer that touches the network) leaves the stack
unchanged. -/
theorem c6_layer_stack_structure (cfg : Config) (w : Nat → Nat → Nat → ℚ)
    (b : Nat → Nat → ℚ) (cuda : Bool) (st : ProcState) (m : BackpropModule)
    (hm : (BackpropModule.init cfg w b cuda st).snd = Except.ok m) :
    m.layers.length = cfg.hidden_layers + 2
    ∧ m.layers.getD 0 Linear.empty
        = mkLinear cfg.input_dim cfg.hidden_units (w 0) (b 0)
    ∧ (∀ j, j < cfg.hidden_layers →
        m.layers.getD (j + 1) Linear.empty
          = mkLinear cfg.hidden_units cfg.hidden_units (w (j + 1)) (b (j + 1)))
    ∧ m.layers.getD (cfg.hidden_layers + 1) Linear.empty
        = mkLinear cfg.hidden_units cfg.output_dim
            (w (cfg.hidden_layers + 1)) (b (cfg.hidden_layers + 1))
    ∧ (∀ (e : ℚ → ℚ) (mask : Nat → Nat → Nat → Bool)
        (lossFn : List (List ℚ) → List (List ℚ) → ℚ) (net : NeuralNet)
        (batch : List (List ℚ) × List (List ℚ)),
        net.module = m →
        (trainStepSingle e mask lossFn net batch).fst.module.layers
          = m.layers) := by
  obtain ⟨-, -, -, -, -, -, -, hl⟩ := init_ok_elim cfg w b cuda st m hm
  refine ⟨?_, ?_, ?_, ?_, ?_⟩
  · rw [hl]; exact mkLayers_length cfg w b
  · rw [hl]; exact mkLayers_getD_zero cfg w b
  · intro j hj; rw [hl]; exact mkLayers_getD_hidden cfg w b j hj
  · rw [hl]; exact mkLayers_getD_last cfg w b
  · intro e mask lossFn net batch hnet
    rw [← hnet]
    rfl

/-- Witness for C6 at a concrete configuration. -/
theorem c6_layer_stack_structure_witness :
    ∃ m : BackpropModule,
      (BackpropModule.init { input_dim := 4, output_dim := 2 }
          (fun _ _ _ => 0) (fun _ _ => 0) false
          ⟨TrainStepImpl.skorchDefault⟩).snd = Except.ok m
      ∧ m.layers.length = 3
      ∧ m.layers.getD 0 Linear.empty
          = mkLinear 4 10 (fun _ _ => 0) (fun _ => 0) := by
  refine ⟨_, rfl, ?_, ?_⟩
  · exact (c6_layer_stack_structure { input_dim := 4, output_dim := 2 }
      (fun _ _ _ => 0) (fun _ _ => 0) false ⟨TrainStepImpl.skorchDefault⟩ _ rfl).1
  · exact (c6_layer_stack_structure { input_dim := 4, output_dim := 2 }
      (fun _ _ _ => 0) (fun _ _ => 0) false ⟨TrainStepImpl.skorchDefault⟩ _ rfl).2.1

/-- C7: for a configuration with `hidden_layers = 0`, a forward pass
applies exactly two linear layers: the operation trace contains exactly
two layer applications (positions 0 and 1), the stack holds exactly the
input layer `(input_dim, hidden_units)` and the output layer
`(hidden_units, output_dim)`, and the forward pass computes the output
activation of the output layer applied to the activated and
dropout-filtered input layer result, with no intermediate layer. -/
theorem c7_two_linear_layers (cfg : Config) (w : Nat → Nat → Nat → ℚ)
    (b : Nat → Nat → ℚ) (cuda : Bool) (st : ProcState) (m : BackpropModule)
    (h0 : cfg.hidden_layers = 0)
    (hm : (BackpropModule.init cfg w b cuda st).snd = Except.ok m) :
    forwardTrace m.hidden_layers
        = [FOp.linear 0, FOp.act, FOp.drop 0, FOp.linear 1, FOp.outAct]
    ∧ (forwardTrace m.hidden_layers).countP FOp.isLinearOp = 2
    ∧ m.layers = [mkLinear cfg.input_dim cfg.hidden_units (w 0) (b 0),
        mkLinear cfg.hidden_units cfg.output_dim (w 1) (b 1)]
    ∧ (∀ (e : ℚ → ℚ) (training : Bool) (mask : Nat → Nat → Bool)
        (x : List ℚ),
        forwardRow e training mask m x
          = ActFn.apply e m.output_activation
              ((mkLinear cfg.hidden_units cfg.output_dim (w 1) (b 1)).apply
                (forwardStep e training mask m 0 x))) := by
  obtain ⟨-, -, -, hh, -, -, -, hl⟩ := init_ok_elim cfg w b cuda st m hm
  have hh0 : m.hidden_layers = 0 := by rw [hh, h0]
  have hlayers : m.layers
      = [mkLinear cfg.input_dim cfg.hidden_units (w 0) (b 0),
        mkLinear cfg.hidden_units cfg.output_dim (w 1) (b 1)] := by
    rw [hl]
    unfold mkLayers
    rw [h0]
    rfl
  refine ⟨?_, ?_, hlayers, ?_⟩
  · rw [hh0]; rfl
  · rw [hh0]; rfl
  · intro e training mask x
    simp only [forwardRow, hh0, List.range_zero, List.foldl_nil]
    rw [hlayers]
    rfl

/-- Witness for C7 at a concrete configuration. -/
theorem c7_two_linear_layers_witness :
    ∃ m : BackpropModule,
      (BackpropModule.init
          { input_dim := 2, output_dim := 2, hidden_units := 3,
            hidden_layers := 0 }
          (fun _ _ _ => 1) (fun _ _ => 1) false
          ⟨TrainStepImpl.skorchDefault⟩).snd = Except.ok m
      ∧ forwardTrace m.hidden_layers
          = [FOp.linear 0, FOp.act, FOp.drop 0, FOp.linear 1, FOp.outAct]
      ∧ (forwardTrace m.hidden_layers).countP FOp.isLinearOp = 2 := by
  refine ⟨_, rfl, ?_, ?_⟩
  · exact (c7_two_linear_layers
      { input_dim := 2, output_dim := 2, hidden_units := 3, hidden_layers := 0 }
      (fun _ _ _ => 1) (fun _ _ => 1) false ⟨TrainStepImpl.skorchDefault⟩ _
      rfl rfl).1
  · exact (c7_two_linear_layers
      { input_dim := 2, output_dim := 2, hidden_units := 3, hidden_layers := 0 }
      (fun _ _ _ => 1) (fun _ _ => 1) false ⟨TrainStepImpl.skorchDefault⟩ _
      rfl rfl).2.1
